import Mathlib

/-!
Shallow embedding of the profile and credential store of the
powerloom/snapshotter-lite-multi-setup CLI (snapshotter_cli/utils/profile.py,
snapshotter_cli/commands/profile.py, snapshotter_cli/commands/configure.py,
snapshotter_cli/commands/identity.py), together with theorems settling the
spec claims about it.

Python dictionaries are modelled as insertion-ordered association lists,
file contents as lists of lines, and the filesystem footprint of the store
(the profiles directory, the legacy envs directory, the current working
directory and config.json) as an explicit state record.  Interactive
prompt answers and clock readings are passed in as parameters.
-/

namespace Snapshotter

/-- Lookup in a Python-dict model (first binding wins; dicts built by
`dictUpsert` have unique keys, so this is the dict lookup). -/
def dictFind {β : Type} : List (String × β) → String → Option β
  | [], _ => none
  | (k', v) :: m, k => if k' = k then some v else dictFind m k

/-- Python `d[k] = v`: replace in place if the key is present (keeping its
insertion position), otherwise append at the end. -/
def dictUpsert {β : Type} : List (String × β) → String → β → List (String × β)
  | [], k, v => [(k, v)]
  | (k', v') :: m, k, v =>
      if k' = k then (k, v) :: m else (k', v') :: dictUpsert m k v

/-- Python `k in d`. -/
def dictContains {β : Type} (m : List (String × β)) (k : String) : Bool :=
  (dictFind m k).isSome

/-- Python `del d[k]` (removes every binding of `k`; dicts have at most one). -/
def dictRemove {β : Type} (m : List (String × β)) (k : String) : List (String × β) :=
  m.filter (fun p => !(p.1 = k))

/-- Python truthiness of `x or y` for an optional string `x`: `None` and the
empty string fall through to `y`. -/
def pyOr (x : Option String) (y : String) : String :=
  match x with
  | none => y
  | some s => if s = "" then y else s

/-- Python truthiness of an optional string (`if x:`). -/
def pyTruthy : Option String → Bool
  | none => false
  | some s => !(s = "")

/-- Python `str.strip` on the character list: drop whitespace from both ends. -/
def stripL (l : List Char) : List Char :=
  ((l.dropWhile Char.isWhitespace).reverse.dropWhile Char.isWhitespace).reverse

/-- Python `str.strip`. -/
def pyStrip (s : String) : String := ⟨stripL s.toList⟩

/-- Python `str.lower` (ASCII), on the character list. -/
def pyLower (s : String) : String := ⟨s.toList.map Char.toLower⟩

/-- Python `str.upper` (ASCII), on the character list. -/
def pyUpper (s : String) : String := ⟨s.toList.map Char.toUpper⟩

/-- Python `str.replace("-", "_")` (both patterns are single characters). -/
def hyphenToUnderscore (s : String) : String :=
  ⟨s.toList.map (fun c => if c = '-' then '_' else c)⟩

/-- One entry of the `profiles` map of config.json: creation timestamp and
description (profile.py, `ProfileConfig.add_profile`). -/
structure ProfileMeta where
  created : String
  description : String
deriving DecidableEq, Repr

/-- The global config.json document (profile.py, `ProfileConfig`). -/
structure GlobalConfig where
  default_profile : String
  last_used_profile : String
  profiles : List (String × ProfileMeta)
deriving DecidableEq, Repr

/-- `ProfileConfig.add_profile`: register (or overwrite) a profile entry.
`description or f"Profile: {name}"` uses Python truthiness. -/
def GlobalConfig.add_profile (c : GlobalConfig) (now name : String)
    (description : Option String) : GlobalConfig :=
  { c with profiles :=
      dictUpsert c.profiles name ⟨now, pyOr description ("Profile: " ++ name)⟩ }

/-- `ProfileConfig.remove_profile`: drop the entry and, only when the entry
was present, revert `default_profile` / `last_used_profile` to `default`
when they named the removed profile. -/
def GlobalConfig.remove_profile (c : GlobalConfig) (name : String) : GlobalConfig :=
  if dictContains c.profiles name then
    let c1 := { c with profiles := dictRemove c.profiles name }
    let c2 := if c1.default_profile = name
              then { c1 with default_profile := "default" } else c1
    if c2.last_used_profile = name
    then { c2 with last_used_profile := "default" } else c2
  else c

/-- Filesystem and config state touched by the profile store.
File contents are lists of lines.  `profileFiles` holds
(profile name, file name, content) for files under `profiles/<name>/`;
`legacyFiles` models the flat legacy envs directory, `cwdFiles` the current
working directory. -/
structure FSState where
  profilesDirExists : Bool
  profileDirs : List String
  profileFiles : List (String × String × List String)
  legacyDirExists : Bool
  legacyFiles : List (String × List String)
  cwdFiles : List (String × List String)
  config : GlobalConfig
deriving DecidableEq, Repr

/-- `profile_exists`: the directory `PROFILES_DIR / name` exists.  For the
empty name, `PROFILES_DIR / "" == PROFILES_DIR` (pathlib drops empty
segments), so the check degenerates to the profiles root itself. -/
def profile_exists (s : FSState) (name : String) : Bool :=
  if name = "" then s.profilesDirExists
  else s.profilesDirExists && s.profileDirs.contains name

/-- `create_profile`: fail if the directory exists, otherwise create it
(`mkdir(parents=True)` also creates the profiles root) and register the
profile in config.json. -/
def create_profile (now name : String) (description : Option String)
    (s : FSState) : Bool × FSState :=
  if profile_exists s name then (false, s)
  else
    let dirs := if name = "" then s.profileDirs else s.profileDirs ++ [name]
    (true, { s with
      profilesDirExists := true,
      profileDirs := dirs,
      config := s.config.add_profile now name description })

/-- `delete_profile`: refuse `default` without force; fail when the
directory is missing; otherwise `shutil.rmtree` the directory and prune the
config entry.  Deleting the empty name removes the profiles root itself
(`PROFILES_DIR / "" == PROFILES_DIR`). -/
def delete_profile (name : String) (force : Bool) (s : FSState) : Bool × FSState :=
  if name = "default" && !force then (false, s)
  else if !(profile_exists s name) then (false, s)
  else if name = "" then
    (true, { s with
      profilesDirExists := false,
      profileDirs := [],
      profileFiles := [],
      config := s.config.remove_profile name })
  else
    (true, { s with
      profileDirs := s.profileDirs.filter (fun d => !(d = name)),
      profileFiles := s.profileFiles.filter (fun t => !(t.1 = name)),
      config := s.config.remove_profile name })

/-- The glob pattern `.env.*.*.*`: literal `.env.` followed by three
`*`-separated-by-`.` groups; `*` matches any (possibly empty) sequence, so
the name must start with `.env.` and carry at least two further dots. -/
def matchesEnvGlob (n : String) : Bool :=
  n.toList.take 5 = ['.', 'e', 'n', 'v', '.']
    && 2 ≤ ((n.toList.drop 5).filter (fun c => c = '.')).length

/-- `migrate_legacy_configs`: no-op once the profiles root exists; with no
legacy envs directory, create the root plus an empty `default` profile;
otherwise create the root and the `default` directory, move every legacy
`.env.*.*.*` file into it, register `default` in config.json and make it
the default profile. -/
def migrate_legacy_configs (now : String) (s : FSState) : Bool × FSState :=
  if s.profilesDirExists then (true, s)
  else if !s.legacyDirExists then
    let s1 := { s with profilesDirExists := true }
    (true, (create_profile now "default" (some "Default profile") s1).2)
  else
    let dirs := if s.profileDirs.contains "default"
                then s.profileDirs else s.profileDirs ++ ["default"]
    let moved := s.legacyFiles.filter (fun f => matchesEnvGlob f.1)
    let s1 := { s with
      profilesDirExists := true,
      profileDirs := dirs,
      legacyFiles := s.legacyFiles.filter (fun f => !(matchesEnvGlob f.1)),
      profileFiles :=
        s.profileFiles.filter
          (fun t : String × String × List String =>
            !(t.1 = "default" && moved.any (fun f : String × List String => f.1 = t.2.1)))
        ++ moved.map (fun f : String × List String => ("default", f.1, f.2)) }
    let c1 := s1.config.add_profile now "default" (some "Migrated from legacy configuration")
    let s2 := { s1 with config := c1 }
    let c2 := if profile_exists s2 "default"
              then { c1 with default_profile := "default" } else c1
    (true, { s2 with config := c2 })

/-- `ensure_profile_structure`: migrate when the profiles root is missing,
recreate the `default` profile when only it is missing, otherwise no-op. -/
def ensure_profile_structure (now : String) (s : FSState) : FSState :=
  if !s.profilesDirExists then (migrate_legacy_configs now s).2
  else if !(profile_exists s "default") then
    (create_profile now "default" (some "Default profile") s).2
  else s

/-- `get_active_profile`: explicit argument, then the POWERLOOM_PROFILE
environment variable (each with fallback to the hardcoded default when the
named profile is missing), then the configured default profile, then the
last used profile, then the hardcoded default. -/
def get_active_profile (s : FSState) (explicitProfile envProfile : Option String) : String :=
  if pyTruthy explicitProfile then
    if profile_exists s (explicitProfile.getD "") then explicitProfile.getD ""
    else "default"
  else if pyTruthy envProfile then
    if profile_exists s (envProfile.getD "") then envProfile.getD ""
    else "default"
  else if profile_exists s s.config.default_profile then s.config.default_profile
  else if !(s.config.last_used_profile = "default")
         && profile_exists s s.config.last_used_profile
    then s.config.last_used_profile
  else "default"

/-- One line of `parse_env_file_vars` (configure.py / deployment): strip the
line, skip it unless it is nonempty, contains `=` and does not start with
`#`; otherwise split at the first `=` and strip key and value. -/
def parse_env_line (m : List (String × String)) (line : String) : List (String × String) :=
  let l := stripL line.toList
  if l = [] then m
  else if !(l.any (fun c => c == '=')) then m
  else if l.headD ' ' == '#' then m
  else
    let key : String := ⟨stripL (l.takeWhile (fun c => !(c == '=')))⟩
    let value : String := ⟨stripL ((l.dropWhile (fun c => !(c == '='))).drop 1)⟩
    dictUpsert m key value

/-- `parse_env_file_vars` over the lines of a file. -/
def parse_env_file_vars (lines : List String) : List (String × String) :=
  List.foldl parse_env_line [] lines

/-- Modelled from the spec: `CONFIG_ENV_FILENAME_TEMPLATE` lives in
`snapshotter_cli/utils/deployment.py`, which is not among the provided
source files; the spec fixes it as the four-part dotted template
`.env.<chain>.<market>.<source_chain>` (matching the local
`ENV_FILENAME_TEMPLATE = ".env.{}.{}.{}"` in configure.py). -/
def CONFIG_ENV_FILENAME_TEMPLATE (chain market source : String) : String :=
  ".env." ++ chain ++ "." ++ market ++ "." ++ source

/-- `get_profile_env_path`, with the user's home directory as a parameter:
`<home>/.powerloom-snapshotter-cli/profiles/<profile>/<filename>`. -/
def get_profile_env_path (home profile chain market source : String) : String :=
  home ++ "/.powerloom-snapshotter-cli/profiles" ++ "/" ++ profile ++ "/"
    ++ CONFIG_ENV_FILENAME_TEMPLATE chain market source

/-- The env-file name as configure.py / identity.py build it: chain and
market lowercased, source chain lowercased with hyphens replaced by
underscores, substituted into the template. -/
def configure_env_filename (chain market source : String) : String :=
  CONFIG_ENV_FILENAME_TEMPLATE (pyLower chain) (pyLower market)
    (hyphenToUnderscore (pyLower source))

/-- The credential-file path exactly as configure.py computes it:
normalization composed with `get_profile_env_path`. -/
def configure_env_path (home profile chain market source : String) : String :=
  get_profile_env_path home profile (pyLower chain) (pyLower market)
    (hyphenToUnderscore (pyLower source))

/-- The four-part credential-file name as the SPEC words it (for the
refinement check of the filename claim): lowercase chain and market,
lowercase source chain with each hyphen replaced by an underscore. -/
def spec_credential_filename (chain market source : String) : String :=
  ".env." ++ pyLower chain ++ "." ++ pyLower market ++ "."
    ++ hyphenToUnderscore (pyLower source)

/-- Profile-name validation of the profile CLI commands (profile.py
commands): nonempty, no slash, no backslash, no dot. -/
def valid_profile_name (n : String) : Bool :=
  !(n = "") && !(n.toList.contains '/') && !(n.toList.contains '\\')
    && !(n.toList.contains '.')

/-- The create command's core (commands/profile.py, validation plus
`create_profile`); `ensure_profile_structure` runs separately before it. -/
def create_profile_command_core (now name : String) (description : Option String)
    (s : FSState) : Except String FSState :=
  if !(valid_profile_name name) then .error "InvalidName"
  else
    match create_profile now name description s with
    | (true, s1) => .ok s1
    | (false, _) => .error "AlreadyExists"

/-- The profile-resolution step of `configure_command` (configure.py):
ensure the structure, resolve the active profile, record it as last used. -/
def configure_profile_step (now : String) (explicitProfile envProfile : Option String)
    (s : FSState) : String × FSState :=
  let s1 := ensure_profile_structure now s
  let active := get_active_profile s1 explicitProfile envProfile
  (active, { s1 with config := { s1.config with last_used_profile := active } })

/-- The final values `configure_command` ends up with after its prompts and
options (lines 276-373 of configure.py are interactive; the write stage is
modelled for all possible outcomes of them). -/
structure ConfigureFinals where
  walletAddress : String
  signerAddress : String
  signerKey : String
  sourceRpc : String
  telegramChat : String
  telegramUrl : String
  telegramCooldown : String
  telegramThread : String
  maxStreamPoolSize : String
  connectionRefreshInterval : String
  powerloomRpcUrl : String
  localCollectorP2pPort : String
deriving DecidableEq, Repr

/-- `template_field_order` of configure.py: the managed template fields, in
output order. -/
def TEMPLATE_FIELD_ORDER : List String :=
  ["WALLET_HOLDER_ADDRESS", "SIGNER_ACCOUNT_ADDRESS", "SIGNER_ACCOUNT_PRIVATE_KEY",
   "SOURCE_RPC_URL", "POWERLOOM_RPC_URL", "TELEGRAM_CHAT_ID", "TELEGRAM_REPORTING_URL",
   "TELEGRAM_NOTIFICATION_COOLDOWN", "TELEGRAM_MESSAGE_THREAD_ID",
   "MAX_STREAM_POOL_SIZE", "CONNECTION_REFRESH_INTERVAL_SEC",
   "LOCAL_COLLECTOR_P2P_PORT", "LITE_NODE_BRANCH", "LOCAL_COLLECTOR_IMAGE_TAG"]

/-- The merge stage of `configure_command` (configure.py lines 375-411):
start from the existing env vars, update each configured field only when
its final value is truthy, then default the branch and image tag. -/
def configure_final_env_vars (existing : List (String × String))
    (fv : ConfigureFinals) : List (String × String) :=
  let m := existing
  let m := if !(fv.walletAddress = "") then dictUpsert m "WALLET_HOLDER_ADDRESS" fv.walletAddress else m
  let m := if !(fv.signerAddress = "") then dictUpsert m "SIGNER_ACCOUNT_ADDRESS" fv.signerAddress else m
  let m := if !(fv.signerKey = "") then dictUpsert m "SIGNER_ACCOUNT_PRIVATE_KEY" fv.signerKey else m
  let m := if !(fv.sourceRpc = "") then dictUpsert m "SOURCE_RPC_URL" fv.sourceRpc else m
  let m := if !(fv.telegramChat = "") then dictUpsert m "TELEGRAM_CHAT_ID" fv.telegramChat else m
  let m := if !(fv.telegramUrl = "") then dictUpsert m "TELEGRAM_REPORTING_URL" fv.telegramUrl else m
  let m := if !(fv.telegramCooldown = "") then dictUpsert m "TELEGRAM_NOTIFICATION_COOLDOWN" fv.telegramCooldown else m
  let m := if !(fv.telegramThread = "") then dictUpsert m "TELEGRAM_MESSAGE_THREAD_ID" fv.telegramThread else m
  let m := if !(fv.maxStreamPoolSize = "") then dictUpsert m "MAX_STREAM_POOL_SIZE" fv.maxStreamPoolSize else m
  let m := if !(fv.connectionRefreshInterval = "") then dictUpsert m "CONNECTION_REFRESH_INTERVAL_SEC" fv.connectionRefreshInterval else m
  let m := if !(fv.powerloomRpcUrl = "") then dictUpsert m "POWERLOOM_RPC_URL" fv.powerloomRpcUrl else m
  let m := if !(fv.localCollectorP2pPort = "") then dictUpsert m "LOCAL_COLLECTOR_P2P_PORT" fv.localCollectorP2pPort else m
  let m := if !(dictContains m "LITE_NODE_BRANCH") then dictUpsert m "LITE_NODE_BRANCH" "main" else m
  if !(dictContains m "LOCAL_COLLECTOR_IMAGE_TAG") then dictUpsert m "LOCAL_COLLECTOR_IMAGE_TAG" "latest" else m

/-- Insert a key-value pair into a list sorted by key (for Python
`sorted(d.items())`; keys are unique so the key ordering decides). -/
def insertSortedKV (p : String × String) : List (String × String) → List (String × String)
  | [] => [p]
  | q :: rest => if p.1 ≤ q.1 then p :: q :: rest else q :: insertSortedKV p rest

/-- Python `sorted` by key over dict items. -/
def sortByKey (l : List (String × String)) : List (String × String) :=
  List.foldr insertSortedKV [] l

/-- The lines `configure_command` writes (configure.py lines 413-441 and
464-466): template fields in their fixed order first, then every remaining
key sorted. -/
def configure_env_contents (existing : List (String × String))
    (fv : ConfigureFinals) : List String :=
  let m := configure_final_env_vars existing fv
  (TEMPLATE_FIELD_ORDER.filterMap
    (fun k => (dictFind m k).map (fun v => k ++ "=" ++ v)))
  ++ ((sortByKey m).filterMap
    (fun p => if TEMPLATE_FIELD_ORDER.contains p.1 then none
              else some (p.1 ++ "=" ++ p.2)))

/-- `delete_identity` (identity.py): resolve the active profile, look for
the namespaced file in the profile directory, then the legacy envs
directory, then the current working directory, and unlink the first hit
after confirmation.  Never touches config.json.  (The legacy `CONFIG_DIR`
comes from the absent deployment.py; per the spec it is the flat legacy
envs directory.) -/
def delete_identity (chain market sourceChain : String)
    (explicitProfile envProfile : Option String) (confirm : Bool)
    (s : FSState) : FSState :=
  let active := get_active_profile s explicitProfile envProfile
  let fname := configure_env_filename chain market sourceChain
  if s.profileFiles.any (fun t => t.1 = active && t.2.1 = fname) then
    if confirm then
      { s with profileFiles :=
          s.profileFiles.filter (fun t => !(t.1 = active && t.2.1 = fname)) }
    else s
  else if s.legacyDirExists && s.legacyFiles.any (fun f => f.1 = fname) then
    if confirm then
      { s with legacyFiles := s.legacyFiles.filter (fun f => !(f.1 = fname)) }
    else s
  else if s.cwdFiles.any (fun f => f.1 = fname) then
    if confirm then
      { s with cwdFiles := s.cwdFiles.filter (fun f => !(f.1 = fname)) }
    else s
  else s

/-- `safe_keys` of `export_profile_command` (commands/profile.py): the
non-sensitive settings included in every export. -/
def SAFE_KEYS : List String :=
  ["TELEGRAM_NOTIFICATION_COOLDOWN", "TELEGRAM_MESSAGE_THREAD_ID",
   "MAX_STREAM_POOL_SIZE", "CONNECTION_REFRESH_INTERVAL_SEC",
   "LITE_NODE_BRANCH", "LOCAL_COLLECTOR_IMAGE_TAG",
   "POWERLOOM_RPC_URL", "TELEGRAM_REPORTING_URL"]

/-- `credential_keys` of `export_profile_command`: included only with
`--include-credentials`. -/
def CREDENTIAL_KEYS : List String :=
  ["WALLET_HOLDER_ADDRESS", "SIGNER_ACCOUNT_ADDRESS",
   "SIGNER_ACCOUNT_PRIVATE_KEY", "SOURCE_RPC_URL", "TELEGRAM_CHAT_ID"]

/-- Python `name.split(".")` on the character list (empty pieces kept). -/
def splitDotAux : List Char → List Char → List String
  | [], acc => [⟨acc.reverse⟩]
  | c :: rest, acc =>
      if c = '.' then (⟨acc.reverse⟩ : String) :: splitDotAux rest []
      else splitDotAux rest (c :: acc)

/-- Python `name.split(".")`. -/
def splitOnDot (s : String) : List String := splitDotAux s.toList []

/-- One entry of the `configurations` array of an exported profile. -/
structure ExportedConfig where
  chain : String
  market : String
  sourceChain : String
  settings : List (String × String)
deriving DecidableEq, Repr

/-- The settings dict one exported configuration carries: the safe keys
found in the parsed env file, plus the credential keys when
`--include-credentials` is set (insertion order follows the key lists). -/
def export_settings (includeCredentials : Bool) (content : List String) :
    List (String × String) :=
  let env := parse_env_file_vars content
  let safe := SAFE_KEYS.filterMap (fun k => (dictFind env k).map (fun v => (k, v)))
  if includeCredentials then
    safe ++ CREDENTIAL_KEYS.filterMap (fun k => (dictFind env k).map (fun v => (k, v)))
  else safe

/-- `export_profile_command`'s per-file step: only files whose name splits
into exactly five dot-parts produce a configuration; parts 2-4 are
uppercased into chain, market and source chain. -/
def export_one_file (includeCredentials : Bool) (fname : String)
    (content : List String) : Option ExportedConfig :=
  let parts := splitOnDot fname
  if parts.length = 5 then
    some { chain := pyUpper (parts.getD 2 ""),
           market := pyUpper (parts.getD 3 ""),
           sourceChain := pyUpper (parts.getD 4 ""),
           settings := export_settings includeCredentials content }
  else none

/-- The configurations array built from the profile directory scan:
`.env.*.*.*` glob, then the five-part filter. -/
def export_configurations (includeCredentials : Bool)
    (files : List (String × List String)) : List ExportedConfig :=
  files.filterMap (fun f =>
    if matchesEnvGlob f.1 then export_one_file includeCredentials f.1 f.2 else none)

/-- The files of one profile directory, in scan order. -/
def filesOf (s : FSState) (p : String) : List (String × List String) :=
  (s.profileFiles.filter (fun t => t.1 = p)).map (fun t => (t.2.1, t.2.2))

/-- The JSON document `export_profile_command` emits (metadata reduced to
the description, the only part `import` consumes). -/
structure TemplateData where
  profile_name : Option String
  metaDescription : Option String
  configurations : List ExportedConfig
deriving DecidableEq, Repr

/-- `export_profile_command`: ensure the structure, fail when the profile
is missing, otherwise emit name, metadata and configurations. -/
def profile_export_command (now : String) (includeCredentials : Bool)
    (p : String) (s : FSState) : Option TemplateData × FSState :=
  let s1 := ensure_profile_structure now s
  if !(profile_exists s1 p) then (none, s1)
  else
    (some { profile_name := some p,
            metaDescription := (dictFind s1.config.profiles p).map (fun m => m.description),
            configurations := export_configurations includeCredentials (filesOf s1 p) },
     s1)

/-- The target filename `import_profile_command` computes for a
configuration: lowercased chain and market, lowercased source chain with
hyphens replaced by underscores. -/
def target_env_filename (c : ExportedConfig) : String :=
  CONFIG_ENV_FILENAME_TEMPLATE (pyLower c.chain) (pyLower c.market)
    (hyphenToUnderscore (pyLower c.sourceChain))

/-- The filename a file comes back under after an export/import round trip
(export uppercases parts 2-4, re-ingestion lowercases and normalizes). -/
def roundtrip_env_filename (n : String) : String :=
  let parts := splitOnDot n
  CONFIG_ENV_FILENAME_TEMPLATE (pyLower (pyUpper (parts.getD 2 "")))
    (pyLower (pyUpper (parts.getD 3 "")))
    (hyphenToUnderscore (pyLower (pyUpper (parts.getD 4 ""))))

/-- The env lines `import_profile_command` writes for one configuration:
one `KEY=VALUE` line per setting, plus a wallet line when the wallet key is
absent and the interactive prompt answer `walletInput` is nonempty. -/
def target_env_lines (walletInput : String) (c : ExportedConfig) : List String :=
  (c.settings.map (fun p => p.1 ++ "=" ++ p.2))
  ++ (if !(dictContains c.settings "WALLET_HOLDER_ADDRESS") && !(walletInput = "")
      then ["WALLET_HOLDER_ADDRESS=" ++ walletInput] else [])

/-- One loop iteration of `import_profile_command`: skip when the target
file exists and `--merge` is off, skip when there are no lines to write,
otherwise write (overwriting in merge mode). -/
def write_config_to_profile (q walletInput : String) (merge : Bool)
    (c : ExportedConfig) (st : FSState) : FSState :=
  let fname := target_env_filename c
  if st.profileFiles.any (fun t => t.1 = q && t.2.1 = fname) && !merge then st
  else
    let lines := target_env_lines walletInput c
    if lines = [] then st
    else
      { st with profileFiles :=
          st.profileFiles.filter (fun t => !(t.1 = q && t.2.1 = fname))
          ++ [(q, fname, lines)] }

/-- `import_profile_command` (commands/profile.py): ensure the structure,
resolve and validate the target profile name, refuse an existing profile
without `--merge`, create the profile when needed, then process every
configuration in order.  `none` models `typer.Exit(1)`. -/
def profile_import_command (now walletInput : String) (nameOverride : Option String)
    (merge : Bool) (data : TemplateData) (s : FSState) : Option FSState :=
  let s1 := ensure_profile_structure now s
  let profileName := pyOr nameOverride (data.profile_name.getD "imported")
  if !(valid_profile_name profileName) then none
  else if profile_exists s1 profileName && !merge then none
  else
    let s2 := if !(profile_exists s1 profileName) then
                (create_profile now profileName
                  (some (data.metaDescription.getD "Imported profile")) s1).2
              else s1
    some (data.configurations.foldl
      (fun st c => write_config_to_profile profileName walletInput merge c st) s2)

/-- Well-formedness of an env-file key for the line parser: nonempty, free
of `=`, not starting with `#`, and strip-stable.  Every safe/credential key
satisfies it. -/
def good_env_key (k : String) : Bool :=
  decide (¬(k.toList = [])) && k.toList.all (fun a => !(a == '='))
    && decide (¬(k.toList.head? = some '#')) && decide (stripL k.toList = k.toList)

/-- All-empty prompt outcomes for the configure write stage. -/
def fvNone : ConfigureFinals :=
  { walletAddress := "", signerAddress := "", signerKey := "", sourceRpc := "",
    telegramChat := "", telegramUrl := "", telegramCooldown := "", telegramThread := "",
    maxStreamPoolSize := "", connectionRefreshInterval := "", powerloomRpcUrl := "",
    localCollectorP2pPort := "" }

/-- Sample store with profiles `default` and `p1` (for the resolver claims). -/
def stC1 : FSState :=
  { profilesDirExists := true, profileDirs := ["default", "p1"], profileFiles := [],
    legacyDirExists := false, legacyFiles := [], cwdFiles := [],
    config := { default_profile := "default", last_used_profile := "default", profiles := [] } }

/-- Sample pre-migration store: no profiles root, one legacy credential file. -/
def stC2 : FSState :=
  { profilesDirExists := false, profileDirs := [], profileFiles := [],
    legacyDirExists := true,
    legacyFiles := [(".env.mainnet.uniswapv2.eth", ["WALLET_HOLDER_ADDRESS=0xABC"])],
    cwdFiles := [],
    config := { default_profile := "default", last_used_profile := "default", profiles := [] } }

/-- Sample store where profile `p` has a directory but no config.json entry,
and is the configured default profile. -/
def stC3 : FSState :=
  { profilesDirExists := true, profileDirs := ["p"], profileFiles := [],
    legacyDirExists := false, legacyFiles := [], cwdFiles := [],
    config := { default_profile := "p", last_used_profile := "p", profiles := [] } }

/-- Sample store with a populated `default` profile. -/
def stC4 : FSState :=
  { profilesDirExists := true, profileDirs := ["default"],
    profileFiles := [("default", ".env.mainnet.uniswapv2.eth_mainnet",
                      ["WALLET_HOLDER_ADDRESS=0xABC"])],
    legacyDirExists := false, legacyFiles := [], cwdFiles := [],
    config := { default_profile := "default", last_used_profile := "default",
                profiles := [("default", { created := "2024-01-01", description := "Default profile" })] } }

/-- Sample store whose profile `p` holds a legacy-migrated credential file
with a hyphen in the source-chain part of its name, containing one safe-key
setting and one non-credential setting outside the export whitelist. -/
def stC5 : FSState :=
  { profilesDirExists := true, profileDirs := ["default", "p"],
    profileFiles := [("p", ".env.mainnet.uniswapv2.eth-mainnet",
                      ["MAX_STREAM_POOL_SIZE=40", "LOCAL_COLLECTOR_P2P_PORT=8001"])],
    legacyDirExists := false, legacyFiles := [], cwdFiles := [],
    config := { default_profile := "default", last_used_profile := "default",
                profiles := [("p", { created := "2024-01-01", description := "Profile: p" })] } }

/-- Sample store whose profile `p` holds one normalized credential file. -/
def stC5w : FSState :=
  { profilesDirExists := true, profileDirs := ["default", "p"],
    profileFiles := [("p", ".env.mainnet.uniswapv2.eth_mainnet",
                      ["MAX_STREAM_POOL_SIZE=40", "WALLET_HOLDER_ADDRESS=0xABC"])],
    legacyDirExists := false, legacyFiles := [], cwdFiles := [],
    config := { default_profile := "default", last_used_profile := "default",
                profiles := [("p", { created := "2024-01-01", description := "Profile: p" })] } }

/-- Exporting profile `p` of `stC5` without credentials and importing the
result into the fresh profile `q`. -/
def roundTripC5 : Option FSState :=
  (profile_export_command "t" false "p" stC5).1.bind
    (fun data => profile_import_command "t2" "" (some "q") false data
      (profile_export_command "t" false "p" stC5).2)

/-- Sample store with a configured identity in profile `work`. -/
def stC6 : FSState :=
  { profilesDirExists := true, profileDirs := ["default", "work"],
    profileFiles := [("work", ".env.mainnet.uniswapv2.eth_mainnet",
                      ["WALLET_HOLDER_ADDRESS=0xABC"])],
    legacyDirExists := false, legacyFiles := [], cwdFiles := [],
    config := { default_profile := "default", last_used_profile := "default", profiles := [] } }

/-- Sample store with only the `default` profile. -/
def stC7 : FSState :=
  { profilesDirExists := true, profileDirs := ["default"], profileFiles := [],
    legacyDirExists := false, legacyFiles := [], cwdFiles := [],
    config := { default_profile := "default", last_used_profile := "default", profiles := [] } }

/-! ## Helper lemmas about the dict model -/

theorem dictFind_upsert_self {β : Type} (m : List (String × β)) (k : String) (v : β) :
    dictFind (dictUpsert m k v) k = some v := by
  induction m with
  | nil => simp [dictUpsert, dictFind]
  | cons p m ih =>
      by_cases h : p.1 = k
      · simp [dictUpsert, dictFind, h]
      · simp [dictUpsert, dictFind, h, ih]

theorem dictFind_upsert_ne {β : Type} (m : List (String × β)) (k k' : String) (v : β)
    (h : ¬(k' = k)) : dictFind (dictUpsert m k' v) k = dictFind m k := by
  induction m with
  | nil => simp [dictUpsert, dictFind, h]
  | cons p m ih =>
      by_cases h1 : p.1 = k'
      · have hk : ¬(p.1 = k) := by rw [h1]; exact h
        simp [dictUpsert, dictFind, h1, h, hk]
      · have hkk : ¬(k = k') := fun hh => h hh.symm
        by_cases h2 : p.1 = k <;> simp [dictUpsert, dictFind, h1, h2, ih, hkk]

theorem mem_upsert_of_ne {β : Type} {m : List (String × β)} {k : String} {v : β}
    (k' : String) (v' : β) (hmem : (k, v) ∈ m) (hne : ¬(k' = k)) :
    (k, v) ∈ dictUpsert m k' v' := by
  induction m with
  | nil => cases hmem
  | cons p m ih =>
      rcases List.mem_cons.mp hmem with h | h
      · have hp1 : ¬(p.1 = k') := by
          rw [← h]
          intro hh
          exact hne hh.symm
        simp only [dictUpsert, if_neg hp1]
        exact List.mem_cons.mpr (Or.inl h)
      · by_cases h1 : p.1 = k'
        · simp only [dictUpsert, if_pos h1]
          exact List.mem_cons_of_mem _ h
        · simp only [dictUpsert, if_neg h1]
          exact List.mem_cons_of_mem _ (ih h)

theorem mem_of_mem_upsert {β : Type} {m : List (String × β)} {k : String} {v : β}
    {p : String × β} (h : p ∈ dictUpsert m k v) : p = (k, v) ∨ p ∈ m := by
  induction m with
  | nil => simpa [dictUpsert] using h
  | cons q m ih =>
      by_cases h1 : q.1 = k
      · simp only [dictUpsert, h1, if_pos rfl] at h
        rcases List.mem_cons.mp h with h | h
        · exact Or.inl h
        · exact Or.inr (List.mem_cons_of_mem _ h)
      · simp only [dictUpsert, if_neg h1] at h
        rcases List.mem_cons.mp h with h | h
        · exact Or.inr (List.mem_cons.mpr (Or.inl h))
        · rcases ih h with h | h
          · exact Or.inl h
          · exact Or.inr (List.mem_cons_of_mem _ h)

theorem dictFind_remove_self {β : Type} (m : List (String × β)) (k : String) :
    dictFind (dictRemove m k) k = none := by
  induction m with
  | nil => simp [dictRemove, dictFind]
  | cons p m ih =>
      by_cases h : p.1 = k
      · simpa [dictRemove, h] using ih
      · simpa [dictRemove, dictFind, h] using ih

theorem dictFind_eq_none_of_not_mem_keys {β : Type} {m : List (String × β)} {k : String}
    (h : k ∉ m.map Prod.fst) : dictFind m k = none := by
  induction m with
  | nil => rfl
  | cons p m ih =>
      simp only [List.map_cons, List.mem_cons] at h
      push_neg at h
      have h1 : ¬(p.1 = k) := fun hh => h.1 hh.symm
      simp [dictFind, h1, ih h.2]

theorem dictFind_mem {β : Type} {m : List (String × β)} {k : String} {v : β}
    (h : dictFind m k = some v) : (k, v) ∈ m := by
  induction m with
  | nil => simp [dictFind] at h
  | cons p m ih =>
      by_cases h1 : p.1 = k
      · simp only [dictFind, if_pos h1] at h
        cases h
        have hp : (k, p.2) = p := by rw [← h1]
        rw [hp]
        exact List.mem_cons_self _ _
      · simp only [dictFind, if_neg h1] at h
        exact List.mem_cons_of_mem _ (ih h)

theorem dictFind_of_mem_nodup {β : Type} {m : List (String × β)} {k : String} {v : β}
    (hnd : (m.map Prod.fst).Nodup) (hmem : (k, v) ∈ m) : dictFind m k = some v := by
  induction m with
  | nil => cases hmem
  | cons p m ih =>
      simp only [List.map_cons, List.nodup_cons] at hnd
      rcases List.mem_cons.mp hmem with h | h
      · simp [dictFind, ← h]
      · have hk : ¬(p.1 = k) := by
          intro hh
          exact hnd.1 (hh ▸ (List.mem_map.mpr ⟨(k, v), h, rfl⟩))
        simp [dictFind, hk, ih hnd.2 h]

theorem upsert_eq_append_of_not_mem {β : Type} {m : List (String × β)} {k : String}
    (v : β) (h : k ∉ m.map Prod.fst) : dictUpsert m k v = m ++ [(k, v)] := by
  induction m with
  | nil => rfl
  | cons p m ih =>
      simp only [List.map_cons, List.mem_cons] at h
      push_neg at h
      have h1 : ¬(p.1 = k) := fun hh => h.1 hh.symm
      simp [dictUpsert, h1, ih h.2]

/-! ## C8, C9, C1 -/

/-- C8: for every (chain, market, source-chain) triple and profile, the
credential-file path computed by the configure/identity commands is the
profile's directory joined with the four-part name
`.env.<chain lowercased>.<market lowercased>.<source lowercased, hyphens to
underscores>`, and in particular chain MAINNET, market UniswapV2, source
ETH-Mainnet yield `.env.mainnet.uniswapv2.eth_mainnet`. -/
theorem C8_credential_file_path :
    (∀ home profile chain market source,
      configure_env_path home profile chain market source =
        home ++ "/.powerloom-snapshotter-cli/profiles" ++ "/" ++ profile ++ "/"
          ++ spec_credential_filename chain market source)
    ∧ configure_env_filename "MAINNET" "UniswapV2" "ETH-Mainnet"
        = ".env.mainnet.uniswapv2.eth_mainnet" := by
  constructor
  · intro home profile chain market source
    rfl
  · decide

/-- C9: the resolver only ever returns the hardcoded name `default` or the
name of a profile whose directory exists in the current state. -/
theorem C9_active_profile_exists (s : FSState) (e v : Option String) :
    get_active_profile s e v = "default"
    ∨ profile_exists s (get_active_profile s e v) = true := by
  unfold get_active_profile
  split
  · split
    · rename_i h
      exact Or.inr h
    · exact Or.inl rfl
  · split
    · split
      · rename_i h
        exact Or.inr h
      · exact Or.inl rfl
    · split
      · rename_i h
        exact Or.inr h
      · split
        · rename_i h
          exact Or.inr (by
            have := h
            simp only [Bool.and_eq_true] at this
            exact this.2)
        · exact Or.inl rfl

/-- C1: strict short-circuiting precedence of `get_active_profile` — a
nonempty explicit name resolves to itself when it exists and to `default`
otherwise, independently of the environment and the config; with no
explicit name, a nonempty POWERLOOM_PROFILE value resolves the same way
with no fallthrough; otherwise the configured default profile wins when it
exists, then the last-used profile when it exists and is not itself
`default`, then the hardcoded `default`. -/
theorem C1_resolution_precedence (s : FSState) (e : String) (he : ¬(e = ""))
    (v : String) (hv : ¬(v = "")) (envAny : Option String) :
    (get_active_profile s (some e) envAny
      = if profile_exists s e then e else "default")
    ∧ (get_active_profile s none (some v)
      = if profile_exists s v then v else "default")
    ∧ (get_active_profile s none none
      = if profile_exists s s.config.default_profile then s.config.default_profile
        else if !(s.config.last_used_profile = "default")
               && profile_exists s s.config.last_used_profile
          then s.config.last_used_profile else "default") := by
  refine ⟨?_, ?_, ?_⟩ <;> simp [get_active_profile, pyTruthy, he, hv]

/-- Witness for C1 at a concrete store and names. -/
theorem C1_resolution_precedence_witness :
    (¬(("p1" : String) = "") ∧ ¬(("zz" : String) = ""))
    ∧ ((get_active_profile stC1 (some "p1") none
        = if profile_exists stC1 "p1" then "p1" else "default")
      ∧ (get_active_profile stC1 none (some "zz")
        = if profile_exists stC1 "zz" then "zz" else "default")
      ∧ (get_active_profile stC1 none none
        = if profile_exists stC1 stC1.config.default_profile then stC1.config.default_profile
          else if !(stC1.config.last_used_profile = "default")
                 && profile_exists stC1 stC1.config.last_used_profile
            then stC1.config.last_used_profile else "default")) :=
  ⟨⟨by decide, by decide⟩,
   C1_resolution_precedence stC1 "p1" (by decide) "zz" (by decide) none⟩

/-! ## C2 -/

/-- C2: when the profiles root is missing and a legacy envs directory is
present, one invocation of the structure-ensure entrypoint succeeds, moves
every legacy `.env.*.*.*` file into `profiles/default/` with identical
content (removing it from the legacy directory), registers `default` as
the default profile, and a second invocation is a no-op. -/
theorem C2_legacy_migration (now now2 : String) (s : FSState)
    (h1 : s.profilesDirExists = false) (h2 : s.legacyDirExists = true)
    (h3 : s.profileDirs = []) (h4 : s.profileFiles = []) :
    (migrate_legacy_configs now s).1 = true
    ∧ (ensure_profile_structure now s).profileFiles
        = (s.legacyFiles.filter (fun f => matchesEnvGlob f.1)).map
            (fun f => ("default", f.1, f.2))
    ∧ (ensure_profile_structure now s).legacyFiles
        = s.legacyFiles.filter (fun f => !(matchesEnvGlob f.1))
    ∧ (ensure_profile_structure now s).config.default_profile = "default"
    ∧ dictContains (ensure_profile_structure now s).config.profiles "default" = true
    ∧ ensure_profile_structure now2 (ensure_profile_structure now s)
        = ensure_profile_structure now s := by
  obtain ⟨pde, dirs, files, lde, lfiles, cwd, cfg⟩ := s
  dsimp only at h1 h2 h3 h4
  subst h1 h2 h3 h4
  refine ⟨rfl, rfl, rfl, rfl, ?_, rfl⟩
  simp [ensure_profile_structure, migrate_legacy_configs, create_profile,
    profile_exists, GlobalConfig.add_profile, dictContains, dictFind_upsert_self]

/-- Witness for C2 at the concrete legacy store holding
`.env.mainnet.uniswapv2.eth` with `WALLET_HOLDER_ADDRESS=0xABC`. -/
theorem C2_legacy_migration_witness :
    (stC2.profilesDirExists = false ∧ stC2.legacyDirExists = true
      ∧ stC2.profileDirs = [] ∧ stC2.profileFiles = [])
    ∧ ((migrate_legacy_configs "t" stC2).1 = true
      ∧ (ensure_profile_structure "t" stC2).profileFiles
          = (stC2.legacyFiles.filter (fun f => matchesEnvGlob f.1)).map
              (fun f => ("default", f.1, f.2))
      ∧ (ensure_profile_structure "t" stC2).legacyFiles
          = stC2.legacyFiles.filter (fun f => !(matchesEnvGlob f.1))
      ∧ (ensure_profile_structure "t" stC2).config.default_profile = "default"
      ∧ dictContains (ensure_profile_structure "t" stC2).config.profiles "default" = true
      ∧ ensure_profile_structure "t2" (ensure_profile_structure "t" stC2)
          = ensure_profile_structure "t" stC2) :=
  ⟨⟨by decide, by decide, by decide, by decide⟩,
   C2_legacy_migration "t" "t2" stC2 (by decide) (by decide) (by decide) (by decide)⟩

/-! ## C3 -/

theorem contains_filter_ne (l : List String) (p : String) :
    (l.filter (fun d => !(d = p))).contains p = false := by
  induction l with
  | nil => rfl
  | cons a l ih =>
      by_cases h : a = p
      · simp [List.filter, h, ih]
      · have hne : ¬(p = a) := fun hh => h hh.symm
        simp [List.filter, h, List.contains_cons, ih, hne]

/-- C3 counterexample: profile `p` has a directory but no config.json
entry, and is both the configured default and last-used profile; deleting
it succeeds but neither field reverts to `default`, contradicting the
claim. -/
theorem C3_counterexample :
    profile_exists stC3 "p" = true
    ∧ (delete_profile "p" false stC3).1 = true
    ∧ stC3.config.default_profile = "p"
    ∧ stC3.config.last_used_profile = "p"
    ∧ ¬((delete_profile "p" false stC3).2.config.default_profile = "default")
    ∧ ¬((delete_profile "p" false stC3).2.config.last_used_profile = "default") := by
  decide

/-- C3 as amended: deleting an existing non-default profile removes its
directory (with all files) and leaves no config.json entry for it; the
`default_profile` / `last_used_profile` revert to `default` happens exactly
when the deleted profile still had a config.json entry — with no entry the
config is returned untouched. -/
theorem remove_profile_not_contains (c : GlobalConfig) (p : String) :
    dictContains (GlobalConfig.remove_profile c p).profiles p = false := by
  cases hc : dictContains c.profiles p with
  | true =>
      have hc' : (dictFind c.profiles p).isSome = true := hc
      by_cases h1 : c.default_profile = p <;> by_cases h2 : c.last_used_profile = p <;>
        simp [GlobalConfig.remove_profile, dictContains, hc', h1, h2,
          dictFind_remove_self]
  | false =>
      have hc' : ¬((dictFind c.profiles p).isSome = true) := by
        intro h
        rw [show (dictFind c.profiles p).isSome = dictContains c.profiles p from rfl, hc] at h
        cases h
      simp only [GlobalConfig.remove_profile, dictContains, if_neg hc']
      exact hc

theorem remove_profile_of_contains (c : GlobalConfig) (p : String)
    (hc : dictContains c.profiles p = true) :
    (c.default_profile = p →
      (GlobalConfig.remove_profile c p).default_profile = "default")
    ∧ (c.last_used_profile = p →
      (GlobalConfig.remove_profile c p).last_used_profile = "default") := by
  have hc' : (dictFind c.profiles p).isSome = true := hc
  constructor
  · intro h1
    by_cases h2 : c.last_used_profile = p <;>
      simp [GlobalConfig.remove_profile, dictContains, hc', h1, h2]
  · intro h2
    by_cases h1 : c.default_profile = p <;>
      simp [GlobalConfig.remove_profile, dictContains, hc', h1, h2]

theorem remove_profile_of_not_contains (c : GlobalConfig) (p : String)
    (hc : dictContains c.profiles p = false) :
    GlobalConfig.remove_profile c p = c := by
  have hc' : ¬((dictFind c.profiles p).isSome = true) := by
    intro h
    rw [show (dictFind c.profiles p).isSome = dictContains c.profiles p from rfl, hc] at h
    cases h
  simp only [GlobalConfig.remove_profile, dictContains, if_neg hc']

theorem C3_delete_profile_amended (s : FSState) (p : String)
    (hp : profile_exists s p = true) (hnd : ¬(p = "default")) :
    (delete_profile p false s).1 = true
    ∧ profile_exists (delete_profile p false s).2 p = false
    ∧ (∀ n c, ¬(((p, n, c) : String × String × List String)
          ∈ (delete_profile p false s).2.profileFiles))
    ∧ dictContains (delete_profile p false s).2.config.profiles p = false
    ∧ (dictContains s.config.profiles p = true →
        (s.config.default_profile = p →
          (delete_profile p false s).2.config.default_profile = "default")
        ∧ (s.config.last_used_profile = p →
          (delete_profile p false s).2.config.last_used_profile = "default"))
    ∧ (dictContains s.config.profiles p = false →
        (delete_profile p false s).2.config = s.config) := by
  by_cases hpe : p = ""
  · subst hpe
    have hpde : s.profilesDirExists = true := by
      simpa [profile_exists] using hp
    have hdel : delete_profile "" false s
        = (true, { s with
                   profilesDirExists := false, profileDirs := [], profileFiles := [],
                   config := GlobalConfig.remove_profile s.config "" }) := by
      simp [delete_profile, profile_exists, hnd, hpde]
    refine ⟨by rw [hdel], by simp [hdel, profile_exists], by simp [hdel],
      by simp [hdel, remove_profile_not_contains], fun hct => ?_, fun hcf => ?_⟩
    · rcases remove_profile_of_contains s.config "" hct with ⟨ha, hb2⟩
      exact ⟨fun h => by rw [hdel]; exact ha h, fun h => by rw [hdel]; exact hb2 h⟩
    · rw [hdel]
      exact remove_profile_of_not_contains s.config "" hcf
  · rw [profile_exists, if_neg hpe, Bool.and_eq_true] at hp
    have hmem : p ∈ s.profileDirs := by
      simpa using hp.2
    have hdel : delete_profile p false s
        = (true, { s with
                   profileDirs := s.profileDirs.filter (fun d => !(d = p)),
                   profileFiles := s.profileFiles.filter (fun t => !(t.1 = p)),
                   config := GlobalConfig.remove_profile s.config p }) := by
      simp [delete_profile, profile_exists, hnd, hpe, hp.1, hp.2, hmem]
    refine ⟨by rw [hdel], ?_, ?_, by simp [hdel, remove_profile_not_contains],
      fun hct => ?_, fun hcf => ?_⟩
    · simp [hdel, profile_exists, hpe, contains_filter_ne]
    · intro n c
      simp [hdel, List.mem_filter]
    · rcases remove_profile_of_contains s.config p hct with ⟨ha, hb2⟩
      exact ⟨fun h => by rw [hdel]; exact ha h, fun h => by rw [hdel]; exact hb2 h⟩
    · rw [hdel]
      exact remove_profile_of_not_contains s.config p hcf

/-- Witness for the amended C3 at a concrete store (profile with a
directory and no config entry). -/
theorem C3_delete_profile_amended_witness :
    (profile_exists stC3 "p" = true ∧ ¬(("p" : String) = "default"))
    ∧ ((delete_profile "p" false stC3).1 = true
      ∧ profile_exists (delete_profile "p" false stC3).2 "p" = false
      ∧ (∀ n c, ¬((("p", n, c) : String × String × List String)
            ∈ (delete_profile "p" false stC3).2.profileFiles))
      ∧ dictContains (delete_profile "p" false stC3).2.config.profiles "p" = false
      ∧ (dictContains stC3.config.profiles "p" = true →
          (stC3.config.default_profile = "p" →
            (delete_profile "p" false stC3).2.config.default_profile = "default")
          ∧ (stC3.config.last_used_profile = "p" →
            (delete_profile "p" false stC3).2.config.last_used_profile = "default"))
      ∧ (dictContains stC3.config.profiles "p" = false →
          (delete_profile "p" false stC3).2.config = stC3.config)) :=
  ⟨⟨by decide, by decide⟩,
   C3_delete_profile_amended stC3 "p" (by decide) (by decide)⟩

/-! ## C4 -/

theorem filter_not_filter_eq_nil {α : Type} (f : α → Bool) (l : List α) :
    (l.filter (fun a => !(f a))).filter f = [] := by
  induction l with
  | nil => rfl
  | cons a l ih =>
      by_cases h : f a <;> simp [List.filter_cons, h, ih]

/-- C4: `delete_profile "default"` without force fails and changes no
state; with force it succeeds and removes the default profile's directory;
a subsequent `ensure_profile_structure` recreates the `default` profile as
an empty directory. -/
theorem C4_default_protection (now : String) (s : FSState)
    (hp : profile_exists s "default" = true) :
    delete_profile "default" false s = (false, s)
    ∧ (delete_profile "default" true s).1 = true
    ∧ profile_exists (delete_profile "default" true s).2 "default" = false
    ∧ profile_exists
        (ensure_profile_structure now (delete_profile "default" true s).2) "default" = true
    ∧ filesOf
        (ensure_profile_structure now (delete_profile "default" true s).2) "default" = [] := by
  have hpde : s.profilesDirExists = true := by
    rw [profile_exists] at hp
    simp only [if_neg (by decide : ¬(("default" : String) = "")), Bool.and_eq_true] at hp
    exact hp.1
  have hdel : delete_profile "default" true s
      = (true, { s with
                 profileDirs := s.profileDirs.filter (fun d => !(d = "default")),
                 profileFiles := s.profileFiles.filter (fun t => !(t.1 = "default")),
                 config := GlobalConfig.remove_profile s.config "default" }) := by
    simp [delete_profile, hp]
  have hgone : profile_exists (delete_profile "default" true s).2 "default" = false := by
    simp [hdel, profile_exists, contains_filter_ne]
  have h1 : (delete_profile "default" true s).2.profilesDirExists = true := by
    rw [hdel]
    exact hpde
  have hens : ensure_profile_structure now (delete_profile "default" true s).2
      = { (delete_profile "default" true s).2 with
          profilesDirExists := true,
          profileDirs := (delete_profile "default" true s).2.profileDirs ++ ["default"],
          config := (delete_profile "default" true s).2.config.add_profile now "default"
                      (some "Default profile") } := by
    rw [ensure_profile_structure]
    simp [create_profile, h1, hgone]
  have h3 : (delete_profile "default" true s).2.profileFiles
      = s.profileFiles.filter (fun t => !(t.1 = "default")) := by
    rw [hdel]
  refine ⟨rfl, by rw [hdel], hgone, ?_, ?_⟩
  · rw [hens]
    simp [profile_exists]
  · rw [hens, filesOf]
    simp [h3, filter_not_filter_eq_nil]

/-- Witness for C4 at a concrete store whose default profile holds one
credential file. -/
theorem C4_default_protection_witness :
    profile_exists stC4 "default" = true
    ∧ (delete_profile "default" false stC4 = (false, stC4)
      ∧ (delete_profile "default" true stC4).1 = true
      ∧ profile_exists (delete_profile "default" true stC4).2 "default" = false
      ∧ profile_exists
          (ensure_profile_structure "t" (delete_profile "default" true stC4).2) "default" = true
      ∧ filesOf
          (ensure_profile_structure "t" (delete_profile "default" true stC4).2) "default" = []) :=
  ⟨by decide, C4_default_protection "t" stC4 (by decide)⟩

/-! ## C7 -/

/-- C7: for a valid profile name (nonempty, no slash, backslash or dot)
with no existing directory, create succeeds and the profile exists right
afterwards; a second create fails with AlreadyExists; and invalid names are
rejected as InvalidName in any state. -/
theorem C7_create_profile (now now2 name : String) (desc desc2 : Option String)
    (s : FSState) (hv : valid_profile_name name = true)
    (hnew : profile_exists s name = false) :
    (∃ s1, create_profile_command_core now name desc s = .ok s1
      ∧ profile_exists s1 name = true
      ∧ create_profile_command_core now2 name desc2 s1 = .error "AlreadyExists")
    ∧ (∀ bad, valid_profile_name bad = false →
        ∀ (st : FSState) d, create_profile_command_core now bad d st = .error "InvalidName") := by
  have hne : ¬(name = "") := by
    intro h
    rw [h] at hv
    exact absurd hv (by decide)
  have hstep : create_profile now name desc s
      = (true, { s with
                 profilesDirExists := true,
                 profileDirs := s.profileDirs ++ [name],
                 config := s.config.add_profile now name desc }) := by
    simp [create_profile, hnew, hne]
  have hex : profile_exists
      ({ s with
         profilesDirExists := true,
         profileDirs := s.profileDirs ++ [name],
         config := s.config.add_profile now name desc }) name = true := by
    simp [profile_exists, hne]
  refine ⟨⟨{ s with
             profilesDirExists := true,
             profileDirs := s.profileDirs ++ [name],
             config := s.config.add_profile now name desc }, ?_, hex, ?_⟩, ?_⟩
  · rw [create_profile_command_core]
    simp [hv, hstep]
  · rw [create_profile_command_core]
    simp [hv, create_profile, hex]
  · intro bad hbad st d
    simp [create_profile_command_core, hbad]

/-- Witness for C7: create a fresh profile `work` in a store holding only
the default profile. -/
theorem C7_create_profile_witness :
    (valid_profile_name "work" = true ∧ profile_exists stC7 "work" = false)
    ∧ ((∃ s1, create_profile_command_core "t" "work" none stC7 = .ok s1
        ∧ profile_exists s1 "work" = true
        ∧ create_profile_command_core "t2" "work" none s1 = .error "AlreadyExists")
      ∧ (∀ bad, valid_profile_name bad = false →
          ∀ (st : FSState) d, create_profile_command_core "t" bad d st = .error "InvalidName")) :=
  ⟨⟨by decide, by decide⟩,
   C7_create_profile "t" "t2" "work" none none stC7 (by decide) (by decide)⟩

/-! ## C6 -/

/-- C6 counterexample: deleting an identity from profile `work` (an
operation that uses a profile and mutates state) leaves
`last_used_profile` untouched at `default` instead of updating it to the
resolved profile `work`, contradicting the claim. -/
theorem C6_counterexample :
    get_active_profile stC6 (some "work") none = "work"
    ∧ ¬(delete_identity "MAINNET" "UNISWAPV2" "ETH-MAINNET" (some "work") none true stC6
        = stC6)
    ∧ (delete_identity "MAINNET" "UNISWAPV2" "ETH-MAINNET" (some "work") none true stC6).config.last_used_profile
        = "default"
    ∧ ¬((delete_identity "MAINNET" "UNISWAPV2" "ETH-MAINNET" (some "work") none true stC6).config.last_used_profile
        = "work") := by
  decide

/-- C6 as amended: `configure` records the resolved active profile as the
last used profile, but `identity delete` leaves the whole GlobalConfig —
`last_used_profile` included — unchanged. -/
theorem C6_last_used_profile_amended :
    (∀ now e v s, (configure_profile_step now e v s).2.config.last_used_profile
        = (configure_profile_step now e v s).1)
    ∧ (∀ ch mk sc e v conf s,
        (delete_identity ch mk sc e v conf s).config = s.config) := by
  constructor
  · intro now e v s
    rfl
  · intro ch mk sc e v conf s
    unfold delete_identity
    dsimp only
    split
    · split <;> rfl
    · split
      · split <;> rfl
      · split
        · split <;> rfl
        · rfl

/-! ## C10 -/

theorem mem_ite_upsert {m : List (String × String)} {k v : String} {c : Prop}
    [Decidable c] (k' v' : String) (hmem : (k, v) ∈ m) (hne : ¬(k' = k)) :
    (k, v) ∈ (if c then dictUpsert m k' v' else m) := by
  split
  · exact mem_upsert_of_ne k' v' hmem hne
  · exact hmem

theorem mem_insertSortedKV {a p : String × String} {l : List (String × String)}
    (h : a = p ∨ a ∈ l) : a ∈ insertSortedKV p l := by
  induction l with
  | nil =>
      rcases h with h | h
      · simp [insertSortedKV, h]
      · cases h
  | cons q l ih =>
      by_cases hle : p.1 ≤ q.1
      · rcases h with h | h
        · simp [insertSortedKV, hle, h]
        · simp [insertSortedKV, hle, List.mem_cons.mpr (Or.inr h)]
      · rcases h with h | h
        · simp only [insertSortedKV, if_neg hle]
          exact List.mem_cons_of_mem _ (ih (Or.inl h))
        · rcases List.mem_cons.mp h with h | h
          · simp [insertSortedKV, hle, h]
          · simp only [insertSortedKV, if_neg hle]
            exact List.mem_cons_of_mem _ (ih (Or.inr h))

theorem mem_sortByKey (a : String × String) (l : List (String × String))
    (h : a ∈ l) : a ∈ sortByKey l := by
  induction l with
  | nil => cases h
  | cons p l ih =>
      rcases List.mem_cons.mp h with h | h
      · exact mem_insertSortedKV (Or.inl h)
      · exact mem_insertSortedKV (Or.inr (ih h))

/-- C10: when configure rewrites an existing namespaced credential file,
every key=value pair of the old file whose key is not a managed template
field is written back verbatim (as the line `key=value`) whatever the
prompt and option outcomes were. -/
theorem C10_custom_vars_preserved (existing : List (String × String))
    (fv : ConfigureFinals) (k v : String)
    (hk : TEMPLATE_FIELD_ORDER.contains k = false)
    (hmem : (k, v) ∈ existing) :
    (k ++ "=" ++ v) ∈ configure_env_contents existing fv := by
  have hkmem : k ∉ TEMPLATE_FIELD_ORDER := by
    intro hin
    have hc : TEMPLATE_FIELD_ORDER.contains k = true := List.elem_iff.mpr hin
    rw [hk] at hc
    cases hc
  have hdiff : ∀ tk ∈ TEMPLATE_FIELD_ORDER, ¬(tk = k) :=
    fun tk htk heq => hkmem (heq ▸ htk)
  have h1 : (k, v) ∈ configure_final_env_vars existing fv := by
    unfold configure_final_env_vars
    dsimp only
    refine mem_ite_upsert _ _ ?_ (hdiff _ (by decide))
    refine mem_ite_upsert _ _ ?_ (hdiff _ (by decide))
    refine mem_ite_upsert _ _ ?_ (hdiff _ (by decide))
    refine mem_ite_upsert _ _ ?_ (hdiff _ (by decide))
    refine mem_ite_upsert _ _ ?_ (hdiff _ (by decide))
    refine mem_ite_upsert _ _ ?_ (hdiff _ (by decide))
    refine mem_ite_upsert _ _ ?_ (hdiff _ (by decide))
    refine mem_ite_upsert _ _ ?_ (hdiff _ (by decide))
    refine mem_ite_upsert _ _ ?_ (hdiff _ (by decide))
    refine mem_ite_upsert _ _ ?_ (hdiff _ (by decide))
    refine mem_ite_upsert _ _ ?_ (hdiff _ (by decide))
    refine mem_ite_upsert _ _ ?_ (hdiff _ (by decide))
    refine mem_ite_upsert _ _ ?_ (hdiff _ (by decide))
    refine mem_ite_upsert _ _ ?_ (hdiff _ (by decide))
    exact hmem
  have h2 : (k, v) ∈ sortByKey (configure_final_env_vars existing fv) :=
    mem_sortByKey _ _ h1
  have h3 : (k ++ "=" ++ v) ∈ (sortByKey (configure_final_env_vars existing fv)).filterMap
      (fun p => if TEMPLATE_FIELD_ORDER.contains p.1 then none
                else some (p.1 ++ "=" ++ p.2)) := by
    refine List.mem_filterMap.mpr ⟨(k, v), h2, ?_⟩
    simp [hkmem]
  unfold configure_env_contents
  dsimp only
  exact List.mem_append.mpr (Or.inr h3)

/-- Witness for C10: a custom variable of the old file survives the
rewrite verbatim. -/
theorem C10_custom_vars_preserved_witness :
    (TEMPLATE_FIELD_ORDER.contains "LOCAL_COLLECTOR_HEALTH_CHECK_PORT" = false
      ∧ (("LOCAL_COLLECTOR_HEALTH_CHECK_PORT", "8081") : String × String)
          ∈ [(("LOCAL_COLLECTOR_HEALTH_CHECK_PORT", "8081") : String × String)])
    ∧ ("LOCAL_COLLECTOR_HEALTH_CHECK_PORT" ++ "=" ++ "8081")
        ∈ configure_env_contents [("LOCAL_COLLECTOR_HEALTH_CHECK_PORT", "8081")] fvNone :=
  ⟨⟨by decide, by decide⟩,
   C10_custom_vars_preserved [("LOCAL_COLLECTOR_HEALTH_CHECK_PORT", "8081")] fvNone
     "LOCAL_COLLECTOR_HEALTH_CHECK_PORT" "8081" (by decide) (by decide)⟩

/-! ## Helper lemmas about stripping -/

theorem dropWhile_head?_false {α : Type} (p : α → Bool) (l : List α) (a : α)
    (h : (l.dropWhile p).head? = some a) : p a = false := by
  induction l with
  | nil => simp [List.dropWhile] at h
  | cons b l ih =>
      by_cases hb : p b
      · rw [List.dropWhile_cons, if_pos hb] at h
        exact ih h
      · rw [List.dropWhile_cons, if_neg hb] at h
        simp only [List.head?_cons, Option.some.injEq] at h
        rw [← h]
        exact Bool.eq_false_iff.mpr hb

theorem getLast?_dropWhile {α : Type} (p : α → Bool) (l : List α)
    (h : l.dropWhile p ≠ []) : (l.dropWhile p).getLast? = l.getLast? := by
  obtain ⟨t, ht⟩ := List.dropWhile_suffix p (l := l)
  conv_rhs => rw [← ht]
  rw [List.getLast?_append]
  cases hg : (l.dropWhile p).getLast? with
  | none => exact absurd (List.getLast?_eq_none_iff.mp hg) h
  | some x => rfl

theorem stripL_head?_false (l : List Char) (a : Char)
    (h : (stripL l).head? = some a) : a.isWhitespace = false := by
  rw [stripL, List.head?_reverse] at h
  have hne : (l.dropWhile Char.isWhitespace).reverse.dropWhile Char.isWhitespace ≠ [] := by
    intro hnil
    rw [hnil] at h
    cases h
  rw [getLast?_dropWhile _ _ hne, List.getLast?_reverse] at h
  exact dropWhile_head?_false _ _ _ h

theorem stripL_getLast?_false (l : List Char) (a : Char)
    (h : (stripL l).getLast? = some a) : a.isWhitespace = false := by
  rw [stripL, List.getLast?_reverse] at h
  exact dropWhile_head?_false _ _ _ h

theorem dropWhile_eq_self_of_head? {α : Type} (p : α → Bool) (l : List α)
    (h : ∀ a, l.head? = some a → p a = false) : l.dropWhile p = l := by
  cases l with
  | nil => rfl
  | cons b l =>
      rw [List.dropWhile_cons, if_neg]
      simp [h b rfl]

theorem stripL_eq_self (l : List Char)
    (h1 : ∀ a, l.head? = some a → a.isWhitespace = false)
    (h2 : ∀ a, l.getLast? = some a → a.isWhitespace = false) :
    stripL l = l := by
  rw [stripL, dropWhile_eq_self_of_head? _ _ h1]
  rw [dropWhile_eq_self_of_head? _ _
    (fun a ha => h2 a (by rwa [List.head?_reverse] at ha))]
  exact List.reverse_reverse l

theorem stripL_idem (l : List Char) : stripL (stripL l) = stripL l :=
  stripL_eq_self _ (stripL_head?_false l) (stripL_getLast?_false l)

/-! ## Helper lemmas about the line parser -/

theorem takeWhile_append_all {α : Type} (p : α → Bool) (l1 l2 : List α)
    (h : ∀ a ∈ l1, p a = true) : (l1 ++ l2).takeWhile p = l1 ++ l2.takeWhile p := by
  induction l1 with
  | nil => rfl
  | cons a l1 ih =>
      rw [List.cons_append, List.takeWhile_cons, if_pos (h a (List.mem_cons_self a l1)),
        ih (fun b hb => h b (List.mem_cons_of_mem a hb)), List.cons_append]

theorem dropWhile_append_all {α : Type} (p : α → Bool) (l1 l2 : List α)
    (h : ∀ a ∈ l1, p a = true) : (l1 ++ l2).dropWhile p = l2.dropWhile p := by
  induction l1 with
  | nil => rfl
  | cons a l1 ih =>
      rw [List.cons_append, List.dropWhile_cons, if_pos (h a (List.mem_cons_self a l1)),
        ih (fun b hb => h b (List.mem_cons_of_mem a hb))]

theorem parse_env_line_exact (m : List (String × String)) (line k v : String)
    (hl : line.toList = k.toList ++ '=' :: v.toList)
    (hk : good_env_key k = true)
    (hv : stripL v.toList = v.toList) :
    parse_env_line m line = dictUpsert m k v := by
  simp only [good_env_key, Bool.and_eq_true, decide_eq_true_eq, List.all_eq_true] at hk
  obtain ⟨⟨⟨hkne, hknoeq⟩, hkhash⟩, hkstrip⟩ := hk
  obtain ⟨c0, hc0⟩ : ∃ c0, k.toList.head? = some c0 := by
    cases hkl : k.toList with
    | nil => exact absurd hkl hkne
    | cons c cs => exact ⟨c, rfl⟩
  have hkhead : ∀ a, k.toList.head? = some a → a.isWhitespace = false := by
    intro a ha
    rw [← hkstrip] at ha
    exact stripL_head?_false _ _ ha
  have hstable : stripL (k.toList ++ '=' :: v.toList) = k.toList ++ '=' :: v.toList := by
    apply stripL_eq_self
    · intro a ha
      rw [List.head?_append, hc0, Option.or_some] at ha
      exact hkhead a (hc0.trans ha)
    · intro a ha
      rw [List.getLast?_append] at ha
      obtain ⟨b, hb⟩ : ∃ b, ('=' :: v.toList).getLast? = some b :=
        Option.isSome_iff_exists.mp (List.getLast?_isSome.mpr (by simp))
      rw [hb, Option.or_some, Option.some.injEq] at ha
      subst ha
      cases hvl : v.toList with
      | nil =>
          rw [hvl] at hb
          simp only [List.getLast?_singleton, Option.some.injEq] at hb
          rw [← hb]
          decide
      | cons c cs =>
          rw [hvl, List.getLast?_cons_cons, ← hvl] at hb
          rw [← hv] at hb
          exact stripL_getLast?_false _ _ hb
  have hkall : ∀ a ∈ k.toList, (fun c => !(c == '=')) a = true := by
    intro a ha
    simp [hknoeq a ha]
  have htake : (k.toList ++ '=' :: v.toList).takeWhile (fun c => !(c == '=')) = k.toList := by
    rw [takeWhile_append_all _ _ _ hkall, List.takeWhile_cons, if_neg (by decide)]
    exact List.append_nil _
  have hdrop : (k.toList ++ '=' :: v.toList).dropWhile (fun c => !(c == '=')) = '=' :: v.toList := by
    rw [dropWhile_append_all _ _ _ hkall, List.dropWhile_cons, if_neg (by decide)]
  have hany : (k.toList ++ '=' :: v.toList).any (fun c => c == '=') = true := by
    simp [List.any_append]
  have hne2 : ¬(k.toList ++ '=' :: v.toList = []) := by simp
  have hnc : ¬(c0 = '#') := by
    intro h
    exact hkhash (h ▸ hc0)
  have hketa : (⟨k.toList⟩ : String) = k := rfl
  have hveta : (⟨v.toList⟩ : String) = v := rfl
  rw [parse_env_line]
  rw [hl, hstable]
  rw [if_neg hne2]
  rw [hany]
  rw [if_neg (by simp)]
  rw [if_neg (by
    have hc0x : k.data.head? = some c0 := hc0
    simp [hc0x, hnc])]
  rw [htake, hkstrip, hdrop]
  simp only [List.drop_succ_cons, List.drop_zero]
  rw [hv, hketa, hveta]

theorem parse_env_line_vals (m : List (String × String)) (line : String)
    (hm : ∀ p ∈ m, stripL p.2.toList = p.2.toList) :
    ∀ p ∈ parse_env_line m line, stripL p.2.toList = p.2.toList := by
  intro p hp
  rw [parse_env_line] at hp
  split at hp
  · exact hm p hp
  · split at hp
    · exact hm p hp
    · split at hp
      · exact hm p hp
      · rcases mem_of_mem_upsert hp with h | h
        · rw [h]
          exact stripL_idem _
        · exact hm p h

theorem foldl_parse_vals (lines : List String) :
    ∀ (m : List (String × String)), (∀ p ∈ m, stripL p.2.toList = p.2.toList) →
    ∀ p ∈ List.foldl parse_env_line m lines, stripL p.2.toList = p.2.toList := by
  induction lines with
  | nil =>
      intro m hm p hp
      exact hm p hp
  | cons line rest ih =>
      intro m hm p hp
      exact ih _ (parse_env_line_vals m line hm) p hp

theorem parse_find_val_stripped (lines : List String) (k v : String)
    (h : dictFind (parse_env_file_vars lines) k = some v) :
    stripL v.toList = v.toList :=
  foldl_parse_vals lines [] (by intro p hp; cases hp) (k, v) (dictFind_mem h)

theorem foldl_parse_pair_lines (settings : List (String × String)) :
    ∀ pre : List (String × String),
    (∀ p ∈ settings, good_env_key p.1 = true ∧ stripL p.2.toList = p.2.toList) →
    (∀ p ∈ settings, ¬(p.1 ∈ pre.map Prod.fst)) →
    (settings.map Prod.fst).Nodup →
    List.foldl parse_env_line pre (settings.map (fun p => p.1 ++ "=" ++ p.2))
      = pre ++ settings := by
  induction settings with
  | nil =>
      intro pre _ _ _
      simp
  | cons p rest ih =>
      intro pre hgood hfresh hnd
      have hp := hgood p (List.mem_cons_self p rest)
      have hdata : (p.1 ++ "=" ++ p.2).toList = p.1.toList ++ '=' :: p.2.toList := by
        show (p.1 ++ "=" ++ p.2).data = p.1.data ++ '=' :: p.2.data
        rw [String.data_append, String.data_append, List.append_assoc]
        rfl
      have hline : parse_env_line pre (p.1 ++ "=" ++ p.2) = dictUpsert pre p.1 p.2 :=
        parse_env_line_exact pre _ p.1 p.2 hdata hp.1 hp.2
      have hup : dictUpsert pre p.1 p.2 = pre ++ [p] := by
        rw [upsert_eq_append_of_not_mem _ (hfresh p (List.mem_cons_self p rest))]
      rw [List.map_cons, List.foldl_cons, hline, hup]
      rw [List.map_cons, List.nodup_cons] at hnd
      rw [ih (pre ++ [p]) (fun r hr => hgood r (List.mem_cons_of_mem p hr)) ?_ hnd.2]
      · rw [List.append_assoc]
        rfl
      · intro r hr hin
        rw [List.map_append, List.mem_append] at hin
        rcases hin with hin | hin
        · exact hfresh r (List.mem_cons_of_mem p hr) hin
        · simp only [List.map_cons, List.map_nil, List.mem_singleton] at hin
          exact hnd.1 (hin ▸ List.mem_map.mpr ⟨r, hr, rfl⟩)

theorem parse_of_settings (settings : List (String × String))
    (hgood : ∀ p ∈ settings, good_env_key p.1 = true ∧ stripL p.2.toList = p.2.toList)
    (hnd : (settings.map Prod.fst).Nodup) :
    parse_env_file_vars (settings.map (fun p => p.1 ++ "=" ++ p.2)) = settings := by
  rw [parse_env_file_vars, foldl_parse_pair_lines settings [] hgood (by simp) hnd]
  rfl

theorem mem_export_settings (content : List String) (k v : String)
    (hk : k ∈ SAFE_KEYS)
    (hfind : dictFind (parse_env_file_vars content) k = some v) :
    (k, v) ∈ export_settings false content := by
  rw [export_settings]
  simp only [Bool.false_eq_true, if_false]
  exact List.mem_filterMap.mpr ⟨k, hk, by rw [hfind]; rfl⟩

theorem mem_export_settings_inv (content : List String) (p : String × String)
    (hp : p ∈ export_settings false content) :
    p.1 ∈ SAFE_KEYS ∧ dictFind (parse_env_file_vars content) p.1 = some p.2 := by
  rw [export_settings] at hp
  simp only [Bool.false_eq_true, if_false] at hp
  obtain ⟨k, hk, heq⟩ := List.mem_filterMap.mp hp
  obtain ⟨v, hv, hpe⟩ := Option.map_eq_some'.mp heq
  rw [← hpe]
  exact ⟨hk, hv⟩

theorem filterMap_option_keys_sublist (ks : List String)
    (g : String → Option String) :
    ((ks.filterMap (fun k => (g k).map (fun v => (k, v)))).map Prod.fst).Sublist ks := by
  induction ks with
  | nil => simp
  | cons k ks ih =>
      cases hg : g k with
      | none =>
          simp only [List.filterMap_cons, hg, Option.map_none']
          exact ih.cons k
      | some v =>
          simp only [List.filterMap_cons, hg, Option.map_some', List.map_cons]
          exact ih.cons₂ k

theorem export_settings_keys_nodup (content : List String) :
    ((export_settings false content).map Prod.fst).Nodup := by
  rw [export_settings]
  simp only [Bool.false_eq_true, if_false]
  exact List.Nodup.sublist
    (filterMap_option_keys_sublist SAFE_KEYS (fun k => dictFind (parse_env_file_vars content) k))
    (by decide)

theorem export_settings_good (content : List String) :
    ∀ p ∈ export_settings false content,
      good_env_key p.1 = true ∧ stripL p.2.toList = p.2.toList := by
  intro p hp
  rcases mem_export_settings_inv content p hp with ⟨hk, hfind⟩
  constructor
  · revert hk
    have hall : ∀ k ∈ SAFE_KEYS, good_env_key k = true := by decide
    exact hall p.1
  · exact parse_find_val_stripped content p.1 p.2 hfind

theorem export_settings_not_safe (content : List String) (k : String)
    (hk : ¬(k ∈ SAFE_KEYS)) :
    dictFind (export_settings false content) k = none := by
  apply dictFind_eq_none_of_not_mem_keys
  intro hmem
  apply hk
  apply (filterMap_option_keys_sublist SAFE_KEYS
    (fun kk => dictFind (parse_env_file_vars content) kk)).subset
  rw [export_settings] at hmem
  simpa using hmem

theorem export_settings_no_credentials (content : List String) (ck : String)
    (hck : ck ∈ CREDENTIAL_KEYS) :
    dictFind (export_settings false content) ck = none := by
  have hdisj : ∀ c2 ∈ CREDENTIAL_KEYS, ¬(c2 ∈ SAFE_KEYS) := by decide
  exact export_settings_not_safe content ck (hdisj ck hck)

theorem export_one_file_eq_some {ic : Bool} {n : String} {c : List String}
    {cfg : ExportedConfig} (h : export_one_file ic n c = some cfg) :
    (splitOnDot n).length = 5
    ∧ cfg = { chain := pyUpper ((splitOnDot n).getD 2 ""),
              market := pyUpper ((splitOnDot n).getD 3 ""),
              sourceChain := pyUpper ((splitOnDot n).getD 4 ""),
              settings := export_settings ic c } := by
  rw [export_one_file] at h
  split at h
  · rename_i hlen
    rw [Option.some.injEq] at h
    exact ⟨hlen, h.symm⟩
  · cases h

theorem target_env_filename_record (n : String) (st : List (String × String)) :
    target_env_filename
      { chain := pyUpper ((splitOnDot n).getD 2 ""),
        market := pyUpper ((splitOnDot n).getD 3 ""),
        sourceChain := pyUpper ((splitOnDot n).getD 4 ""), settings := st }
      = roundtrip_env_filename n := rfl

theorem mem_export_configurations (files : List (String × List String))
    (n : String) (c : List String) (hmem : (n, c) ∈ files)
    (hglob : matchesEnvGlob n = true) (hlen : (splitOnDot n).length = 5) :
    ∃ cfg, cfg ∈ export_configurations false files
      ∧ target_env_filename cfg = roundtrip_env_filename n
      ∧ cfg.settings = export_settings false c := by
  refine ⟨{ chain := pyUpper ((splitOnDot n).getD 2 ""),
            market := pyUpper ((splitOnDot n).getD 3 ""),
            sourceChain := pyUpper ((splitOnDot n).getD 4 ""),
            settings := export_settings false c }, ?_, target_env_filename_record n _, rfl⟩
  refine List.mem_filterMap.mpr ⟨(n, c), hmem, ?_⟩
  rw [if_pos hglob, export_one_file]
  dsimp only
  rw [if_pos hlen]

theorem export_names_mem (files : List (String × List String))
    (hnorm : ∀ f ∈ files, matchesEnvGlob f.1 = true →
      (splitOnDot f.1).length = 5 → roundtrip_env_filename f.1 = f.1) :
    ∀ x ∈ (export_configurations false files).map target_env_filename,
      x ∈ files.map Prod.fst := by
  intro x hx
  obtain ⟨cfg, hcfg, hxeq⟩ := List.mem_map.mp hx
  obtain ⟨f, hf, hfeq⟩ := List.mem_filterMap.mp hcfg
  by_cases hg : matchesEnvGlob f.1 = true
  · rw [if_pos hg] at hfeq
    obtain ⟨hlen, hcfgeq⟩ := export_one_file_eq_some hfeq
    have : target_env_filename cfg = f.1 := by
      rw [hcfgeq, target_env_filename_record]
      exact hnorm f hf hg hlen
    rw [← hxeq, this]
    exact List.mem_map.mpr ⟨f, hf, rfl⟩
  · rw [if_neg hg] at hfeq
    cases hfeq

theorem export_names_nodup (files : List (String × List String))
    (hnd : (files.map Prod.fst).Nodup)
    (hnorm : ∀ f ∈ files, matchesEnvGlob f.1 = true →
      (splitOnDot f.1).length = 5 → roundtrip_env_filename f.1 = f.1) :
    ((export_configurations false files).map target_env_filename).Nodup := by
  induction files with
  | nil => simp [export_configurations]
  | cons f rest ih =>
      rw [List.map_cons, List.nodup_cons] at hnd
      have hnormr : ∀ g ∈ rest, matchesEnvGlob g.1 = true →
          (splitOnDot g.1).length = 5 → roundtrip_env_filename g.1 = g.1 :=
        fun g hg => hnorm g (List.mem_cons_of_mem f hg)
      cases hgf : (if matchesEnvGlob f.1 = true then export_one_file false f.1 f.2 else none) with
      | none =>
          rw [export_configurations, List.filterMap_cons, hgf]
          exact ih hnd.2 hnormr
      | some cfg =>
          rw [export_configurations, List.filterMap_cons, hgf, List.map_cons,
            List.nodup_cons]
          constructor
          · intro hin
            have hx := export_names_mem rest hnormr (target_env_filename cfg) hin
            by_cases hg : matchesEnvGlob f.1 = true
            · rw [if_pos hg] at hgf
              obtain ⟨hlen, hcfgeq⟩ := export_one_file_eq_some hgf
              rw [hcfgeq, target_env_filename_record, hnorm f (List.mem_cons_self f rest) hg hlen] at hx
              exact hnd.1 hx
            · rw [if_neg hg] at hgf
              cases hgf
          · exact ih hnd.2 hnormr

theorem target_env_lines_no_wallet (c : ExportedConfig) :
    target_env_lines "" c = c.settings.map (fun p => p.1 ++ "=" ++ p.2) := by
  rw [target_env_lines]
  simp

theorem write_config_preserves (q wi : String) (c : ExportedConfig) (st : FSState)
    (e : String × String × List String) (he : e ∈ st.profileFiles)
    (hne : ¬(e.1 = q ∧ e.2.1 = target_env_filename c)) :
    e ∈ (write_config_to_profile q wi false c st).profileFiles := by
  rw [write_config_to_profile]
  have hpred : (!(e.1 = q && e.2.1 = target_env_filename c)) = true := by
    simp only [Bool.not_eq_true', Bool.and_eq_false_iff]
    by_cases h1 : e.1 = q
    · right
      simp only [decide_eq_false_iff_not]
      exact fun h2 => hne ⟨h1, h2⟩
    · left
      simp only [decide_eq_false_iff_not]
      exact h1
  split
  · exact he
  · dsimp only
    split
    · exact he
    · exact List.mem_append.mpr (Or.inl (List.mem_filter.mpr ⟨he, hpred⟩))

theorem import_fold_preserves (q wi : String) (cfgs : List ExportedConfig) :
    ∀ (st : FSState) (e : String × String × List String),
    e ∈ st.profileFiles →
    (∀ c ∈ cfgs, ¬(e.1 = q ∧ e.2.1 = target_env_filename c)) →
    e ∈ (cfgs.foldl (fun acc c => write_config_to_profile q wi false c acc) st).profileFiles := by
  induction cfgs with
  | nil =>
      intro st e he _
      exact he
  | cons c0 rest ih =>
      intro st e he hne
      rw [List.foldl_cons]
      exact ih _ e
        (write_config_preserves q wi c0 st e he (hne c0 (List.mem_cons_self c0 rest)))
        (fun c hc => hne c (List.mem_cons_of_mem c0 hc))

theorem write_config_writes (q : String) (c : ExportedConfig) (st : FSState)
    (hnotex : st.profileFiles.any
      (fun t => t.1 = q && t.2.1 = target_env_filename c) = false)
    (hlines : ¬(target_env_lines "" c = [])) :
    (q, target_env_filename c, target_env_lines "" c)
      ∈ (write_config_to_profile q "" false c st).profileFiles := by
  rw [write_config_to_profile]
  rw [if_neg (by simp [hnotex])]
  rw [if_neg hlines]
  exact List.mem_append.mpr (Or.inr (List.mem_singleton.mpr rfl))

theorem any_filter_false {α : Type} (p r : α → Bool) (l : List α)
    (h : l.any p = false) : (l.filter r).any p = false := by
  rw [List.any_eq_false] at h ⊢
  intro x hx
  exact h x (List.mem_of_mem_filter hx)

theorem write_config_keeps_absent (q wi : String) (c c' : ExportedConfig) (st : FSState)
    (h : st.profileFiles.any
      (fun t => t.1 = q && t.2.1 = target_env_filename c') = false)
    (hne : ¬(target_env_filename c = target_env_filename c')) :
    (write_config_to_profile q wi false c st).profileFiles.any
      (fun t => t.1 = q && t.2.1 = target_env_filename c') = false := by
  rw [write_config_to_profile]
  split
  · exact h
  · dsimp only
    split
    · exact h
    · rw [List.any_append]
      rw [any_filter_false _ _ _ h]
      simp [hne]

theorem import_fold_writes (q : String) (cfgs : List ExportedConfig) :
    ∀ (st : FSState) (c : ExportedConfig),
    c ∈ cfgs →
    ((cfgs.map target_env_filename).Nodup) →
    (∀ c' ∈ cfgs, st.profileFiles.any
      (fun t => t.1 = q && t.2.1 = target_env_filename c') = false) →
    ¬(target_env_lines "" c = []) →
    (q, target_env_filename c, target_env_lines "" c)
      ∈ (cfgs.foldl (fun acc cc => write_config_to_profile q "" false cc acc) st).profileFiles := by
  induction cfgs with
  | nil =>
      intro st c hc
      cases hc
  | cons c0 rest ih =>
      intro st c hc hnd hnotex hlines
      rw [List.map_cons, List.nodup_cons] at hnd
      rw [List.foldl_cons]
      rcases List.mem_cons.mp hc with hceq | hcrest
      · subst hceq
        apply import_fold_preserves
        · exact write_config_writes q c st (hnotex c (List.mem_cons_self c rest)) hlines
        · intro c' hc' hcontra
          have heq : target_env_filename c = target_env_filename c' := hcontra.2
          exact hnd.1 (heq ▸ List.mem_map.mpr ⟨c', hc', rfl⟩)
      · apply ih _ c hcrest hnd.2 ?_ hlines
        intro c' hc'
        apply write_config_keeps_absent q "" c0 c' st
          (hnotex c' (List.mem_cons_of_mem c0 hc'))
        intro heq
        exact hnd.1 (heq ▸ List.mem_map.mpr ⟨c', hc', rfl⟩)

/-! ## C5 -/

theorem ensure_noop (now : String) (s : FSState)
    (h1 : s.profilesDirExists = true) (h2 : profile_exists s "default" = true) :
    ensure_profile_structure now s = s := by
  rw [ensure_profile_structure]
  simp [h1, h2]

/-- C5 as amended: in a structure-ensured store, exporting profile `p`
without credentials and importing the result into a fresh valid profile `q`
succeeds; for every five-part configuration file, each setting whose key is
on export's safe-key whitelist reappears with the same key and value in the
file whose name is the normalized form of the original (identical to the
original exactly when the name is already normalized, as configure/import
produce them — hypothesis `hnorm`), while every other key — the five
credential fields and equally every non-credential key outside the
whitelist, such as `LOCAL_COLLECTOR_P2P_PORT` or custom variables — is
absent from the imported file. -/
theorem C5_roundtrip_amended (now now2 : String) (s : FSState) (p q : String)
    (hroot : s.profilesDirExists = true)
    (hdef : profile_exists s "default" = true)
    (hp : profile_exists s p = true)
    (hq : profile_exists s q = false)
    (hqv : valid_profile_name q = true)
    (hqfiles : ∀ t ∈ s.profileFiles, ¬(t.1 = q))
    (hnd : ((filesOf s p).map Prod.fst).Nodup)
    (hnorm : ∀ f ∈ filesOf s p, matchesEnvGlob f.1 = true →
        (splitOnDot f.1).length = 5 → roundtrip_env_filename f.1 = f.1) :
    ∃ data s2,
      (profile_export_command now false p s).1 = some data
      ∧ (profile_export_command now false p s).2 = s
      ∧ profile_import_command now2 "" (some q) false data s = some s2
      ∧ (∀ n c, (n, c) ∈ filesOf s p → matchesEnvGlob n = true →
          (splitOnDot n).length = 5 →
          ∀ k v, k ∈ SAFE_KEYS → dictFind (parse_env_file_vars c) k = some v →
          ∃ c2, (q, n, c2) ∈ s2.profileFiles
            ∧ dictFind (parse_env_file_vars c2) k = some v
            ∧ (∀ ck ∈ CREDENTIAL_KEYS, dictFind (parse_env_file_vars c2) ck = none)
            ∧ (∀ k2, ¬(k2 ∈ SAFE_KEYS) →
                dictFind (parse_env_file_vars c2) k2 = none)) := by
  have hens : ∀ nw, ensure_profile_structure nw s = s :=
    fun nw => ensure_noop nw s hroot hdef
  have hqne : ¬(q = "") := by
    intro h
    rw [h] at hqv
    exact absurd hqv (by decide)
  have hexp : profile_export_command now false p s
      = (some { profile_name := some p,
                metaDescription := (dictFind s.config.profiles p).map (fun m => m.description),
                configurations := export_configurations false (filesOf s p) }, s) := by
    rw [profile_export_command, hens]
    simp [hp]
  have himp : profile_import_command now2 ""
      (some q) false
      { profile_name := some p,
        metaDescription := (dictFind s.config.profiles p).map (fun m => m.description),
        configurations := export_configurations false (filesOf s p) } s
      = some ((export_configurations false (filesOf s p)).foldl
          (fun st c => write_config_to_profile q "" false c st)
          { s with
            profilesDirExists := true,
            profileDirs := s.profileDirs ++ [q],
            config := s.config.add_profile now2 q
              (some (((dictFind s.config.profiles p).map (fun m => m.description)).getD
                "Imported profile")) }) := by
    rw [profile_import_command, hens]
    simp [pyOr, hqne, hqv, hq, create_profile]
  refine ⟨_, _, by rw [hexp], by rw [hexp], himp, ?_⟩
  intro n c hmem hglob hlen k v hk hfind
  obtain ⟨cfg, hcfgmem, hcfgname, hcfgset⟩ :=
    mem_export_configurations (filesOf s p) n c hmem hglob hlen
  have hnameeq : target_env_filename cfg = n :=
    hcfgname.trans (hnorm (n, c) hmem hglob hlen)
  have hsetmem : (k, v) ∈ export_settings false c :=
    mem_export_settings c k v hk hfind
  have hlines_ne : ¬(target_env_lines "" cfg = []) := by
    rw [target_env_lines_no_wallet, hcfgset]
    intro hnil
    rw [List.map_eq_nil_iff] at hnil
    rw [hnil] at hsetmem
    cases hsetmem
  have hnotex : ∀ c' ∈ export_configurations false (filesOf s p),
      (({ s with
          profilesDirExists := true,
          profileDirs := s.profileDirs ++ [q],
          config := s.config.add_profile now2 q
            (some (((dictFind s.config.profiles p).map (fun m => m.description)).getD
              "Imported profile")) } : FSState)).profileFiles.any
        (fun t => t.1 = q && t.2.1 = target_env_filename c') = false := by
    intro c' _
    rw [List.any_eq_false]
    intro t ht
    simp [hqfiles t ht]
  have hwrote := import_fold_writes q (export_configurations false (filesOf s p)) _ cfg
    hcfgmem (export_names_nodup (filesOf s p) hnd hnorm) hnotex hlines_ne
  rw [hnameeq] at hwrote
  have hparse : parse_env_file_vars (target_env_lines "" cfg) = export_settings false c := by
    rw [target_env_lines_no_wallet, hcfgset]
    exact parse_of_settings _ (export_settings_good c) (export_settings_keys_nodup c)
  refine ⟨target_env_lines "" cfg, hwrote, ?_, ?_, ?_⟩
  · rw [hparse]
    exact dictFind_of_mem_nodup (export_settings_keys_nodup c) hsetmem
  · intro ck hck
    rw [hparse]
    exact export_settings_no_credentials c ck hck
  · intro k2 hk2
    rw [hparse]
    exact export_settings_not_safe c k2 hk2

/-- Witness for the amended C5 at a concrete store whose profile `p` holds
one normalized credential file. -/
theorem C5_roundtrip_amended_witness :
    (stC5w.profilesDirExists = true ∧ profile_exists stC5w "default" = true
      ∧ profile_exists stC5w "p" = true ∧ profile_exists stC5w "q" = false
      ∧ valid_profile_name "q" = true
      ∧ (∀ t ∈ stC5w.profileFiles, ¬(t.1 = "q"))
      ∧ ((filesOf stC5w "p").map Prod.fst).Nodup
      ∧ (∀ f ∈ filesOf stC5w "p", matchesEnvGlob f.1 = true →
          (splitOnDot f.1).length = 5 → roundtrip_env_filename f.1 = f.1))
    ∧ (∃ data s2,
        (profile_export_command "t" false "p" stC5w).1 = some data
        ∧ (profile_export_command "t" false "p" stC5w).2 = stC5w
        ∧ profile_import_command "t2" "" (some "q") false data stC5w = some s2
        ∧ (∀ n c, (n, c) ∈ filesOf stC5w "p" → matchesEnvGlob n = true →
            (splitOnDot n).length = 5 →
            ∀ k v, k ∈ SAFE_KEYS → dictFind (parse_env_file_vars c) k = some v →
            ∃ c2, ("q", n, c2) ∈ s2.profileFiles
              ∧ dictFind (parse_env_file_vars c2) k = some v
              ∧ (∀ ck ∈ CREDENTIAL_KEYS, dictFind (parse_env_file_vars c2) ck = none)
              ∧ (∀ k2, ¬(k2 ∈ SAFE_KEYS) →
                  dictFind (parse_env_file_vars c2) k2 = none))) :=
  ⟨⟨by decide, by decide, by decide, by decide, by decide, by decide, by decide, by decide⟩,
   C5_roundtrip_amended "t" "t2" stC5w "p" "q" (by decide) (by decide) (by decide)
     (by decide) (by decide) (by decide) (by decide) (by decide)⟩

/-- C5 counterexample, refuting the claim on two independent points.
Profile `p` holds the (legacy-migrated) file
`.env.mainnet.uniswapv2.eth-mainnet` whose settings include the safe key
`MAX_STREAM_POOL_SIZE=40` and the non-credential, non-whitelisted key
`LOCAL_COLLECTOR_P2P_PORT=8001`.  The export/import round trip into the
fresh profile `q` succeeds, but (a) the settings land in the normalized
file `.env.mainnet.uniswapv2.eth_mainnet` — not the same namespaced file —
and (b) `LOCAL_COLLECTOR_P2P_PORT`, which is none of the five credential
fields the claim allows to be omitted, is absent from every file of the
imported profile, so not all non-credential settings are reproduced. -/
theorem C5_counterexample :
    stC5.profileFiles.any
      (fun t => t.1 = "p" && t.2.1 = ".env.mainnet.uniswapv2.eth-mainnet") = true
    ∧ dictFind (parse_env_file_vars
        ["MAX_STREAM_POOL_SIZE=40", "LOCAL_COLLECTOR_P2P_PORT=8001"])
        "LOCAL_COLLECTOR_P2P_PORT" = some "8001"
    ∧ ¬("LOCAL_COLLECTOR_P2P_PORT" ∈ CREDENTIAL_KEYS)
    ∧ roundTripC5.isSome = true
    ∧ roundTripC5.elim false
        (fun s2 => s2.profileFiles.any
          (fun t => t.1 = "q" && t.2.1 = ".env.mainnet.uniswapv2.eth-mainnet")) = false
    ∧ roundTripC5.elim false
        (fun s2 => s2.profileFiles.any
          (fun t => t.1 = "q" && t.2.1 = ".env.mainnet.uniswapv2.eth_mainnet"
            && (dictFind (parse_env_file_vars t.2.2) "MAX_STREAM_POOL_SIZE"
                  == some "40"))) = true
    ∧ roundTripC5.elim false
        (fun s2 => s2.profileFiles.all
          (fun t => !(t.1 = "q")
            || (dictFind (parse_env_file_vars t.2.2)
                  "LOCAL_COLLECTOR_P2P_PORT").isNone)) = true := by
  decide

end Snapshotter
